import Mathlib

/-!
A shallow embedding of the core of the EventStore-Client-Helpers library
(`projects/eventstore-helpers/src/streamHelpers.ts` and
`projects/eventstore-helpers/src/aggregateHelper.ts`) together with proofs
about snapshot-based state reconstruction, event migration, and the
aggregate transaction coordinator.

The external EventStoreDB client is modelled as an explicit store value
(association lists of streams); asynchronous methods become pure functions
returning `Except` for fallible paths.  JavaScript truthiness of the
optional `version` field (`!event.version`) is modelled on `Option Nat`.
-/

namespace EventStoreHelpers

/-- Lookup in an association-list map (models `Map.get` / object indexing). -/
def mapGet {α : Type} (k : String) : List (String × α) → Option α
  | [] => none
  | (k₁, v) :: rest => if k₁ = k then some v else mapGet k rest

/-- Insert-or-replace in an association-list map (models `Map.set`, which
updates an existing key in place and otherwise appends). -/
def mapSet {α : Type} (k : String) (v : α) : List (String × α) → List (String × α)
  | [] => [(k, v)]
  | (k₁, v₁) :: rest => if k₁ = k then (k, v) :: rest else (k₁, v₁) :: mapSet k v rest

/-- Key removal in an association-list map (models `Map.delete`). -/
def mapDelete {α : Type} (k : String) : List (String × α) → List (String × α)
  | [] => []
  | (k₁, v₁) :: rest => if k₁ = k then mapDelete k rest else (k₁, v₁) :: mapDelete k rest

/-- A versioned event, after `BaseEvent` of `types.ts`: `type` selects the
reducer branch, `version` (optional in TS, hence `Option Nat`) selects the
migration entry point, `data` is the JSON payload (abstracted to `D`). -/
structure Event (D : Type) where
  type : String
  data : D
  version : Option Nat
  metadata : Option String
deriving DecidableEq, Repr

/-- JavaScript truthiness of the optional numeric `version` field:
`undefined` and `0` are falsy. -/
def versionTruthy : Option Nat → Bool
  | none => false
  | some n => n != 0

/-- An event migration, after `EventMigration` of `types.ts`. -/
structure EventMigration (D : Type) where
  fromVersion : Nat
  toVersion : Nat
  eventType : String
  migrate : Event D → Event D

/-- The stream-helper configuration after the defaults applied in the
`StreamHelper` constructor (`snapshotFrequency ?? 0`, `snapshotPrefix ??
"-snapshot"`, `currentEventVersion ?? 1`, `eventMigrations ?? []`). -/
structure StreamConfig (D : Type) where
  snapshotFrequency : Nat
  snapshotPrefix : String
  currentEventVersion : Nat
  eventMigrations : List (EventMigration D)

/-- `StreamHelper.migrateEventIfNeeded`: returns the event unchanged when its
`version` is falsy or not below `currentEventVersion`; otherwise makes one
pass over the configured migrations, applying each whose `eventType` matches
the original event's type, whose `fromVersion` is at most the original
event's version, and whose `toVersion` is at most `currentEventVersion`.
Note that the guard reads `event.type` and the pre-migration `eventVersion`
throughout the loop, exactly as the TypeScript does. -/
def migrateEventIfNeeded {D : Type} (cfg : StreamConfig D) (event : Event D) : Event D :=
  if !(versionTruthy event.version) then event
  else
    let eventVersion := event.version.getD 1
    if eventVersion < cfg.currentEventVersion then
      cfg.eventMigrations.foldl
        (fun migratedEvent migration =>
          if migration.eventType = event.type ∧
              migration.fromVersion ≤ eventVersion ∧
              migration.toVersion ≤ cfg.currentEventVersion then
            migration.migrate migratedEvent
          else migratedEvent)
        event
    else event

/-- The migration pair used by the repository's own test
(`streamHelpers.test.ts`, "should apply multiple migrations in sequence"):
1→2 doubles the value, 2→3 adds one, both for type `valueUpdated`. -/
def chainMigrations : List (EventMigration Int) :=
  [ { fromVersion := 1, toVersion := 2, eventType := "valueUpdated",
      migrate := fun e => { type := "valueUpdated", data := e.data * 2,
                            version := some 2, metadata := none } },
    { fromVersion := 2, toVersion := 3, eventType := "valueUpdated",
      migrate := fun e => { type := "valueUpdated", data := e.data + 1,
                            version := some 3, metadata := none } } ]

/-- Configuration with `currentEventVersion = 3` and the two chain migrations. -/
def chainConfig : StreamConfig Int :=
  { snapshotFrequency := 0, snapshotPrefix := "-snapshot",
    currentEventVersion := 3, eventMigrations := chainMigrations }

/-- The version-1 `valueUpdated` event carrying value 5. -/
def chainEvent : Event Int :=
  { type := "valueUpdated", data := 5, version := some 1, metadata := none }

/-- C2: migration chaining fails in the code.  For the event at version 1
with value 5 and the migrations 1→2 (double) and 2→3 (add one) under
`currentEventVersion = 3`, `migrateEventIfNeeded` yields value 10 at
version 2 — the 2→3 migration is skipped because the loop guard compares
the original event version 1 against its `fromVersion` 2 — whereas the
claim (and the repository's own test) require value 11 at version 3. -/
theorem migration_chain_example :
    migrateEventIfNeeded chainConfig chainEvent =
      { type := "valueUpdated", data := 10, version := some 2, metadata := none } := by
  rfl

/-- C9: version-0 migration bypass.  An event whose `version` field is absent
or zero is returned unchanged by `migrateEventIfNeeded`, whatever migrations
are configured and whatever `currentEventVersion` is. -/
theorem migrate_version_zero_bypass {D : Type} (cfg : StreamConfig D) (e : Event D)
    (h : e.version = none ∨ e.version = some 0) :
    migrateEventIfNeeded cfg e = e := by
  rcases h with h | h <;> simp [migrateEventIfNeeded, versionTruthy, h]

/-- A configuration holding a migration whose `fromVersion` is 0 for the
event type `t`, with `currentEventVersion` greater than 0. -/
def zeroFromConfig : StreamConfig Int :=
  { snapshotFrequency := 0, snapshotPrefix := "-snapshot",
    currentEventVersion := 2,
    eventMigrations :=
      [ { fromVersion := 0, toVersion := 1, eventType := "t",
          migrate := fun e => { e with data := e.data + 100, version := some 1 } } ] }

/-- Witness for C9: the version-0 event of type `t` is left unchanged even
though a matching migration with `fromVersion = 0` is configured and
`currentEventVersion = 2 > 0`. -/
theorem migrate_version_zero_bypass_witness :
    ((some 0 : Option Nat) = none ∨ (some 0 : Option Nat) = some 0) ∧
      migrateEventIfNeeded zeroFromConfig
        { type := "t", data := 7, version := some 0, metadata := none } =
        { type := "t", data := 7, version := some 0, metadata := none } :=
  ⟨Or.inr rfl,
    migrate_version_zero_bypass zeroFromConfig
      { type := "t", data := 7, version := some 0, metadata := none } (Or.inr rfl)⟩

/-- A snapshot record, after `Snapshot` of `types.ts`: the cached state, the
version (event count) it reflects, and a timestamp string. -/
structure Snapshot (S : Type) where
  state : S
  version : Nat
  timestamp : String
deriving DecidableEq, Repr

/-- An error signalled by the modelled Event Log Client: the distinguished
stream-not-found condition, an expected-revision mismatch (concurrency
conflict), or a plain append failure (rejected write). -/
inductive EsError where
  | streamNotFound
  | wrongExpectedVersion
  | appendFailed
deriving DecidableEq, Repr

/-- The state of the external EventStoreDB client, modelled as explicit
data: the domain streams and the snapshot streams, each an association list
from stream name to its revision-ordered event list (a missing stream reads
as empty, matching `readEvents`, which converts `StreamNotFoundError` to an
empty list), plus the names of streams whose appends the environment
rejects (modelling I/O write failures). -/
structure ClientModel (S D : Type) where
  streams : List (String × List (Event D))
  snapshotStreams : List (String × List (Snapshot S))
  failingAppends : List String
deriving DecidableEq, Repr

/-- The contents of a domain stream (missing stream = empty list). -/
def lookupStream {S D : Type} (st : ClientModel S D) (name : String) : List (Event D) :=
  (mapGet name st.streams).getD []

/-- The contents of a snapshot stream (missing stream = empty list). -/
def lookupSnapshotStream {S D : Type} (st : ClientModel S D) (name : String) :
    List (Snapshot S) :=
  (mapGet name st.snapshotStreams).getD []

/-- `client.appendToStream` for domain events: fails when the environment
rejects writes to this stream; when an `expectedRevision` guard is supplied
it succeeds only if the stream's last revision equals the guard (the stream
holds exactly `expectedRevision + 1` events), signalling a concurrency
conflict otherwise. -/
def appendToStream {S D : Type} (st : ClientModel S D) (name : String)
    (events : List (Event D)) (expectedRevision : Option Nat) :
    Except EsError (ClientModel S D) :=
  if name ∈ st.failingAppends then .error .appendFailed
  else
    let current := lookupStream st name
    match expectedRevision with
    | none => .ok { st with streams := mapSet name (current ++ events) st.streams }
    | some r =>
        if current.length = r + 1 then
          .ok { st with streams := mapSet name (current ++ events) st.streams }
        else .error .wrongExpectedVersion

/-- `client.appendToStream` for snapshot events (no revision guard is ever
supplied on the snapshot stream). -/
def appendSnapshotToStream {S D : Type} (st : ClientModel S D) (name : String)
    (snap : Snapshot S) : Except EsError (ClientModel S D) :=
  if name ∈ st.failingAppends then .error .appendFailed
  else
    .ok { st with
          snapshotStreams :=
            mapSet name (lookupSnapshotStream st name ++ [snap]) st.snapshotStreams }

/-- The snapshot stream name for a stream id (backtick-template
`streamId + snapshotPrefix` in the source). -/
def snapshotStreamName {D : Type} (cfg : StreamConfig D) (streamId : String) : String :=
  streamId ++ cfg.snapshotPrefix

/-- `StreamHelper.readEvents` from a given revision: all events of the
stream from that revision forward; a never-written stream yields `[]`
(the source catches `StreamNotFoundError` and returns an empty array). -/
def readEvents {S D : Type} (st : ClientModel S D) (streamName : String)
    (fromRevision : Nat) : List (Event D) :=
  (lookupStream st streamName).drop fromRevision

/-- `StreamHelper.getLatestSnapshot`: the last event of the snapshot stream,
or `none` when the stream is empty or missing.  (In the model the snapshot
stream holds only `snapshot`-typed records, so the source's check that the
last event's type is `snapshot` always passes.) -/
def getLatestSnapshot {S D : Type} (cfg : StreamConfig D) (st : ClientModel S D)
    (streamId : String) : Option (Snapshot S) :=
  (lookupSnapshotStream st (snapshotStreamName cfg streamId)).getLast?

/-- The literal timestamp the source writes into each snapshot record. -/
def snapshotTimestamp : String := "2025-01-20T16:46:27-05:00"

/-- `StreamHelper.createSnapshot`: a no-op when the folded state is null
(`if (!state) return`), otherwise appends one snapshot record to the
snapshot stream. -/
def createSnapshot {S D : Type} (cfg : StreamConfig D) (st : ClientModel S D)
    (streamId : String) (state : Option S) (version : Nat) :
    Except EsError (ClientModel S D) :=
  match state with
  | none => .ok st
  | some s =>
      appendSnapshotToStream st (snapshotStreamName cfg streamId)
        { state := s, version := version, timestamp := snapshotTimestamp }

/-- `StreamHelper.appendEvent`: writes one event; the options object is
`expectedRevision ? { expectedRevision } : undefined`, so a supplied
revision of `0` is falsy and the call carries no guard. -/
def appendEvent {S D : Type} (st : ClientModel S D) (streamId : String)
    (event : Event D) (expectedRevision : Option Nat) :
    Except EsError (ClientModel S D) :=
  appendToStream st streamId [event]
    (match expectedRevision with
     | some r => if r != 0 then some r else none
     | none => none)

/-- One step of the reconstruction fold: migrate the event, fold it into the
state with the caller-supplied reducer, and increment the version. -/
def applyOne {S D : Type} (cfg : StreamConfig D)
    (applyEvent : Option S → Event D → S) (sv : Option S × Nat) (e : Event D) :
    Option S × Nat :=
  (some (applyEvent sv.1 (migrateEventIfNeeded cfg e)), sv.2 + 1)

/-- The reconstruction loop of `getCurrentState`: fold every read event into
the state, counting versions. -/
def replayFold {S D : Type} (cfg : StreamConfig D)
    (applyEvent : Option S → Event D → S) (init : Option S × Nat)
    (events : List (Event D)) : Option S × Nat :=
  events.foldl (applyOne cfg applyEvent) init

/-- The tail of `getCurrentState`: write a snapshot when the frequency is
positive, the version is positive and the version is a multiple of the
frequency; a snapshot-append error propagates (the surrounding catch only
converts `StreamNotFoundError`, which appends never raise). -/
def finishPass {S D : Type} (cfg : StreamConfig D) (st : ClientModel S D)
    (streamId : String) (sv : Option S × Nat) :
    Except EsError ((Option S × Nat) × ClientModel S D) :=
  if cfg.snapshotFrequency > 0 ∧ sv.2 > 0 ∧ sv.2 % cfg.snapshotFrequency = 0 then
    match createSnapshot cfg st streamId sv.1 sv.2 with
    | .ok st₁ => .ok (sv, st₁)
    | .error e => .error e
  else .ok (sv, st)

/-- `StreamHelper.getCurrentState`: fetch the latest snapshot, replay the
stream's events from the snapshot's version (or the start), migrating and
folding each one, then conditionally persist a new snapshot and return the
reconstructed state and version along with the resulting store. -/
def getCurrentState {S D : Type} (cfg : StreamConfig D) (st : ClientModel S D)
    (streamId : String) (applyEvent : Option S → Event D → S) :
    Except EsError ((Option S × Nat) × ClientModel S D) :=
  let snapshot := getLatestSnapshot cfg st streamId
  let initState : Option S := snapshot.map (·.state)
  let fromRevision : Nat := match snapshot with | some s => s.version | none => 0
  let initVersion : Nat := match snapshot with | some s => s.version | none => 0
  let events := readEvents st streamId fromRevision
  finishPass cfg st streamId (replayFold cfg applyEvent (initState, initVersion) events)

/-- The snapshot-cadence contract of the specification:
`frequency > 0 AND version > 0 AND version mod frequency == 0`. -/
def shouldSnapshot (version frequency : Nat) : Bool :=
  decide (0 < frequency) && decide (0 < version) && (version % frequency == 0)

/-- Looking a key up right after setting it yields the stored value. -/
lemma mapGet_mapSet_self {α : Type} (k : String) (v : α) (l : List (String × α)) :
    mapGet k (mapSet k v l) = some v := by
  induction l with
  | nil => simp [mapSet, mapGet]
  | cons p rest ih =>
      rcases p with ⟨k₁, v₁⟩
      by_cases h : k₁ = k
      · simp [mapSet, mapGet, h]
      · simp [mapSet, mapGet, h, ih]

/-- Setting one key leaves every other key's lookup unchanged. -/
lemma mapGet_mapSet_ne {α : Type} (k k₁ : String) (v : α) (l : List (String × α))
    (h : k₁ ≠ k) : mapGet k₁ (mapSet k v l) = mapGet k₁ l := by
  induction l with
  | nil => simp only [mapSet, mapGet, if_neg (Ne.symm h)]
  | cons p rest ih =>
      rcases p with ⟨k₂, v₂⟩
      by_cases h₂ : k₂ = k
      · have hk₂ : ¬ k₂ = k₁ := by rw [h₂]; exact Ne.symm h
        simp only [mapSet, if_pos h₂, mapGet, if_neg (Ne.symm h), if_neg hk₂]
      · simp only [mapSet, if_neg h₂, mapGet, ih]

/-- Deleting a key makes its lookup miss. -/
lemma mapGet_mapDelete_self {α : Type} (k : String) (l : List (String × α)) :
    mapGet k (mapDelete k l) = none := by
  induction l with
  | nil => simp [mapDelete, mapGet]
  | cons p rest ih =>
      rcases p with ⟨k₁, v₁⟩
      by_cases h : k₁ = k
      · simp [mapDelete, h, ih]
      · simp [mapDelete, mapGet, h, ih]

/-- Deleting one key leaves every other key's lookup unchanged. -/
lemma mapGet_mapDelete_ne {α : Type} (k k₁ : String) (l : List (String × α))
    (h : k₁ ≠ k) : mapGet k₁ (mapDelete k l) = mapGet k₁ l := by
  induction l with
  | nil => simp [mapDelete]
  | cons p rest ih =>
      rcases p with ⟨k₂, v₂⟩
      by_cases h₂ : k₂ = k
      · have hk₂ : ¬ k₂ = k₁ := by rw [h₂]; exact Ne.symm h
        simp only [mapDelete, if_pos h₂, mapGet, if_neg hk₂, ih]
      · simp only [mapDelete, if_neg h₂, mapGet, ih]

/-- The reconstruction fold advances the version by exactly the number of
events applied. -/
lemma replayFold_snd {S D : Type} (cfg : StreamConfig D) (f : Option S → Event D → S)
    (events : List (Event D)) : ∀ init : Option S × Nat,
    (replayFold cfg f init events).2 = init.2 + events.length := by
  induction events with
  | nil => intro init; simp [replayFold]
  | cons e rest ih =>
      intro init
      have : replayFold cfg f init (e :: rest) =
          replayFold cfg f (applyOne cfg f init e) rest := rfl
      rw [this, ih]
      simp [applyOne]
      omega

/-- The reconstruction fold splits over list append. -/
lemma replayFold_append {S D : Type} (cfg : StreamConfig D) (f : Option S → Event D → S)
    (init : Option S × Nat) (l₁ l₂ : List (Event D)) :
    replayFold cfg f init (l₁ ++ l₂) = replayFold cfg f (replayFold cfg f init l₁) l₂ := by
  simp [replayFold, List.foldl_append]

/-- After folding at least one event the state is non-null. -/
lemma replayFold_isSome {S D : Type} (cfg : StreamConfig D) (f : Option S → Event D → S)
    (events : List (Event D)) (h : events ≠ []) (init : Option S × Nat) :
    ((replayFold cfg f init events).1).isSome = true := by
  rcases List.eq_nil_or_concat events with rfl | ⟨l, e, rfl⟩
  · exact absurd rfl h
  · rw [List.concat_eq_append, replayFold_append]
    simp [replayFold, applyOne]

/-- When the initial state can only be null at version zero, a positive
final version forces a non-null final state. -/
lemma replayFold_pos_some {S D : Type} (cfg : StreamConfig D) (f : Option S → Event D → S)
    (init : Option S × Nat) (events : List (Event D))
    (hinit : init.1 = none → init.2 = 0)
    (hpos : 0 < (replayFold cfg f init events).2) :
    ∃ s, (replayFold cfg f init events).1 = some s := by
  rcases hev : events with _ | ⟨e, rest⟩
  · subst hev
    simp only [replayFold, List.foldl_nil] at hpos ⊢
    cases hi : init.1 with
    | none => exact absurd hpos (by rw [hinit hi]; omega)
    | some s => exact ⟨s, rfl⟩
  · subst hev
    have := replayFold_isSome cfg f (e :: rest) (by simp) init
    exact Option.isSome_iff_exists.mp this

/-- `getCurrentState` unfolded to its reconstruction core followed by the
snapshot-writing tail. -/
lemma getCurrentState_eq {S D : Type} (cfg : StreamConfig D) (st : ClientModel S D)
    (streamId : String) (f : Option S → Event D → S) :
    getCurrentState cfg st streamId f =
      finishPass cfg st streamId (replayFold cfg f
        (Option.map (fun s => s.state) (getLatestSnapshot cfg st streamId),
         match getLatestSnapshot cfg st streamId with | some s => s.version | none => 0)
        (readEvents st streamId
          (match getLatestSnapshot cfg st streamId with | some s => s.version | none => 0))) :=
  rfl

/-- A null initial state only arises together with initial version zero: the
snapshot either exists (non-null state) or is absent (version zero). -/
lemma initFromSnapshot_null {S : Type} (snap : Option (Snapshot S)) :
    (Option.map (fun s => s.state) snap : Option S) = none →
      (match snap with | some s => s.version | none => 0) = 0 := by
  cases snap <;> simp

/-- When appends to the snapshot stream succeed, the snapshot-writing tail
returns the reconstructed pair unchanged. -/
lemma finishPass_ok {S D : Type} (cfg : StreamConfig D) (st : ClientModel S D)
    (streamId : String) (sv : Option S × Nat)
    (hfail : snapshotStreamName cfg streamId ∉ st.failingAppends) :
    ∃ st₁, finishPass cfg st streamId sv = .ok (sv, st₁) := by
  unfold finishPass
  split
  · cases hs : sv.1 with
    | none => exact ⟨st, by simp [createSnapshot]⟩
    | some s =>
        refine ⟨{ st with
          snapshotStreams :=
            mapSet (snapshotStreamName cfg streamId)
              (lookupSnapshotStream st (snapshotStreamName cfg streamId) ++
                [{ state := s, version := sv.2, timestamp := snapshotTimestamp }])
              st.snapshotStreams }, ?_⟩
        simp [createSnapshot, appendSnapshotToStream, hfail]
  · exact ⟨st, rfl⟩

/-- The boolean snapshot-cadence contract agrees with the propositional
guard written in `getCurrentState`. -/
lemma shouldSnapshot_iff (v fr : Nat) :
    shouldSnapshot v fr = true ↔ (fr > 0 ∧ v > 0 ∧ v % fr = 0) := by
  simp [shouldSnapshot, and_assoc]

/-- C6: snapshot cadence.  Whenever the environment accepts snapshot
appends, `getCurrentState` succeeds, leaves the store untouched when
`shouldSnapshot version frequency` is false, and appends exactly one
snapshot record (carrying the folded state and version) when it is true. -/
theorem getCurrentState_snapshot_cadence {S D : Type} (cfg : StreamConfig D)
    (st : ClientModel S D) (streamId : String) (f : Option S → Event D → S)
    (hfail : snapshotStreamName cfg streamId ∉ st.failingAppends) :
    ∃ sv st₁, getCurrentState cfg st streamId f = .ok (sv, st₁) ∧
      (shouldSnapshot sv.2 cfg.snapshotFrequency = false → st₁ = st) ∧
      (shouldSnapshot sv.2 cfg.snapshotFrequency = true →
        ∃ s, sv.1 = some s ∧
          lookupSnapshotStream st₁ (snapshotStreamName cfg streamId) =
            lookupSnapshotStream st (snapshotStreamName cfg streamId) ++
              [{ state := s, version := sv.2, timestamp := snapshotTimestamp }]) := by
  rw [getCurrentState_eq]
  set sv := replayFold cfg f
      (Option.map (fun s => s.state) (getLatestSnapshot cfg st streamId),
       match getLatestSnapshot cfg st streamId with | some s => s.version | none => 0)
      (readEvents st streamId
        (match getLatestSnapshot cfg st streamId with | some s => s.version | none => 0))
    with hsv
  by_cases hcond : cfg.snapshotFrequency > 0 ∧ sv.2 > 0 ∧ sv.2 % cfg.snapshotFrequency = 0
  · obtain ⟨s, hs⟩ : ∃ s, sv.1 = some s := by
      rw [hsv]
      exact replayFold_pos_some cfg f _ _ (initFromSnapshot_null _) (hsv ▸ hcond.2.1)
    refine ⟨sv,
      { st with
        snapshotStreams :=
          mapSet (snapshotStreamName cfg streamId)
            (lookupSnapshotStream st (snapshotStreamName cfg streamId) ++
              [{ state := s, version := sv.2, timestamp := snapshotTimestamp }])
            st.snapshotStreams },
      ?_, ?_, ?_⟩
    · unfold finishPass
      rw [if_pos hcond, hs]
      simp [createSnapshot, appendSnapshotToStream, hfail]
    · intro hfalse
      exact absurd ((shouldSnapshot_iff _ _).2 hcond) (by rw [hfalse]; simp)
    · intro _
      refine ⟨s, hs, ?_⟩
      simp [lookupSnapshotStream, mapGet_mapSet_self]
  · have h₁ : finishPass cfg st streamId sv = .ok (sv, st) := by
      unfold finishPass
      rw [if_neg hcond]
    refine ⟨sv, st, h₁, fun _ => rfl, fun htrue => ?_⟩
    exact absurd ((shouldSnapshot_iff _ _).1 htrue) hcond

/-- A snapshot-cadence configuration with frequency 5 and no migrations. -/
def freqFiveConfig : StreamConfig Int :=
  { snapshotFrequency := 5, snapshotPrefix := "-snapshot",
    currentEventVersion := 1, eventMigrations := [] }

/-- Reducer used in the concrete runs: sums the integer payloads. -/
def applyAdd : Option Int → Event Int → Int :=
  fun s e => s.getD 0 + e.data

/-- A current-version event carrying payload `n`. -/
def mkEvent (n : Int) : Event Int :=
  { type := "valueUpdated", data := n, version := some 1, metadata := none }

/-- A client holding five events on stream `s` and no snapshots. -/
def fiveEventsClient : ClientModel Int Int :=
  { streams := [("s", [mkEvent 5, mkEvent 10, mkEvent 15, mkEvent 20, mkEvent 25])],
    snapshotStreams := [], failingAppends := [] }

/-- Witness for C6: with frequency 5 and five events the cadence theorem
applies; its hypothesis (appends accepted) holds for this client. -/
theorem getCurrentState_snapshot_cadence_witness :
    (snapshotStreamName freqFiveConfig "s" ∉ fiveEventsClient.failingAppends) ∧
      (∃ sv st₁, getCurrentState freqFiveConfig fiveEventsClient "s" applyAdd = .ok (sv, st₁) ∧
        (shouldSnapshot sv.2 freqFiveConfig.snapshotFrequency = false → st₁ = fiveEventsClient) ∧
        (shouldSnapshot sv.2 freqFiveConfig.snapshotFrequency = true →
          ∃ s, sv.1 = some s ∧
            lookupSnapshotStream st₁ (snapshotStreamName freqFiveConfig "s") =
              lookupSnapshotStream fiveEventsClient (snapshotStreamName freqFiveConfig "s") ++
                [{ state := s, version := sv.2, timestamp := snapshotTimestamp }])) :=
  ⟨by decide, getCurrentState_snapshot_cadence freqFiveConfig fiveEventsClient "s" applyAdd (by decide)⟩

/-- The first component of a successful `finishPass` is the pair it was given. -/
lemma finishPass_ok_fst {S D : Type} (cfg : StreamConfig D) (st : ClientModel S D)
    (streamId : String) (sv sv₁ : Option S × Nat) (st₁ : ClientModel S D)
    (h : finishPass cfg st streamId sv = .ok (sv₁, st₁)) : sv₁ = sv := by
  unfold finishPass at h
  split at h
  · cases hc : createSnapshot cfg st streamId sv.1 sv.2 with
    | ok st₂ =>
        rw [hc] at h
        injection h with h₂
        injection h₂ with ha _
        exact ha.symm
    | error e =>
        rw [hc] at h
        exact Except.noConfusion h
  · injection h with h₂
    injection h₂ with ha _
    exact ha.symm

/-- With a null folded state the snapshot-writing tail is the identity. -/
lemma finishPass_null {S D : Type} (cfg : StreamConfig D) (st : ClientModel S D)
    (streamId : String) (sv : Option S × Nat) (hnull : sv.1 = none) :
    finishPass cfg st streamId sv = .ok (sv, st) := by
  unfold finishPass
  split
  · rw [hnull]
    simp [createSnapshot]
  · rfl

/-- C10: null-state snapshot suppression.  When a `getCurrentState` pass
ends with a null folded state, the snapshot streams are left exactly as
they were. -/
theorem getCurrentState_null_state_frame {S D : Type} (cfg : StreamConfig D)
    (st : ClientModel S D) (streamId : String) (f : Option S → Event D → S)
    (sv : Option S × Nat) (st₁ : ClientModel S D)
    (h : getCurrentState cfg st streamId f = .ok (sv, st₁)) (hnull : sv.1 = none) :
    st₁.snapshotStreams = st.snapshotStreams := by
  rw [getCurrentState_eq] at h
  have hfst := finishPass_ok_fst _ _ _ _ _ _ h
  rw [finishPass_null cfg st streamId _ (by rw [← hfst]; exact hnull)] at h
  injection h with h₂
  injection h₂ with _ hst
  rw [← hst]

/-- A client with no streams at all. -/
def emptyClient : ClientModel Int Int :=
  { streams := [], snapshotStreams := [], failingAppends := [] }

/-- Witness for C10: on an empty stream the pass ends with a null state and
the snapshot streams are untouched. -/
theorem getCurrentState_null_state_frame_witness :
    getCurrentState freqFiveConfig emptyClient "s" applyAdd = .ok ((none, 0), emptyClient) ∧
      emptyClient.snapshotStreams = emptyClient.snapshotStreams :=
  ⟨rfl, getCurrentState_null_state_frame freqFiveConfig emptyClient "s" applyAdd
    (none, 0) emptyClient rfl rfl⟩

/-- A configuration snapshotting after every event. -/
def freqOneConfig : StreamConfig Int :=
  { snapshotFrequency := 1, snapshotPrefix := "-snapshot",
    currentEventVersion := 1, eventMigrations := [] }

/-- A client whose snapshot-stream appends are rejected by the environment. -/
def snapFailClient : ClientModel Int Int :=
  { streams := [("s", [mkEvent 1])], snapshotStreams := [],
    failingAppends := ["s-snapshot"] }

/-- Counterexample to C5: the single event folds successfully to state 1 at
version 1, the cadence (frequency 1) triggers a snapshot write, the write
fails — and `getCurrentState` returns the append error instead of the
reconstructed state and version. -/
theorem getCurrentState_snapshot_failure_counterexample :
    getCurrentState freqOneConfig snapFailClient "s" applyAdd = .error .appendFailed := by
  rfl

/-- C5 (amended): when the environment rejects snapshot-stream appends, a
`getCurrentState` pass either propagates the append error (whenever the
cadence triggered a write) or succeeds without having needed a write at all
— the reconstructed state is never returned past a failed snapshot write. -/
theorem getCurrentState_snapshot_failure_propagates {S D : Type} (cfg : StreamConfig D)
    (st : ClientModel S D) (streamId : String) (f : Option S → Event D → S)
    (hfail : snapshotStreamName cfg streamId ∈ st.failingAppends) :
    getCurrentState cfg st streamId f = .error .appendFailed ∨
      ∃ sv st₁, getCurrentState cfg st streamId f = .ok (sv, st₁) ∧
        shouldSnapshot sv.2 cfg.snapshotFrequency = false ∧ st₁ = st := by
  rw [getCurrentState_eq]
  set sv := replayFold cfg f
      (Option.map (fun s => s.state) (getLatestSnapshot cfg st streamId),
       match getLatestSnapshot cfg st streamId with | some s => s.version | none => 0)
      (readEvents st streamId
        (match getLatestSnapshot cfg st streamId with | some s => s.version | none => 0))
    with hsv
  by_cases hcond : cfg.snapshotFrequency > 0 ∧ sv.2 > 0 ∧ sv.2 % cfg.snapshotFrequency = 0
  · left
    obtain ⟨s, hs⟩ : ∃ s, sv.1 = some s := by
      rw [hsv]
      exact replayFold_pos_some cfg f _ _ (initFromSnapshot_null _) (hsv ▸ hcond.2.1)
    unfold finishPass
    rw [if_pos hcond, hs]
    simp [createSnapshot, appendSnapshotToStream, hfail]
  · right
    refine ⟨sv, st, ?_, ?_, rfl⟩
    · unfold finishPass
      rw [if_neg hcond]
    · cases h : shouldSnapshot sv.2 cfg.snapshotFrequency with
      | false => rfl
      | true => exact absurd ((shouldSnapshot_iff _ _).1 h) hcond

/-- Witness for the amended C5: the failing-append hypothesis holds for
`snapFailClient` and the theorem applies to it. -/
theorem getCurrentState_snapshot_failure_witness :
    (snapshotStreamName freqOneConfig "s" ∈ snapFailClient.failingAppends) ∧
      (getCurrentState freqOneConfig snapFailClient "s" applyAdd = .error .appendFailed ∨
        ∃ sv st₁, getCurrentState freqOneConfig snapFailClient "s" applyAdd = .ok (sv, st₁) ∧
          shouldSnapshot sv.2 freqOneConfig.snapshotFrequency = false ∧ st₁ = snapFailClient) :=
  ⟨by decide,
    getCurrentState_snapshot_failure_propagates freqOneConfig snapFailClient "s" applyAdd
      (by decide)⟩

/-- A client holding two events on stream `s` (so the stream's last
revision is 1, not 0). -/
def twoEventsClient : ClientModel Int Int :=
  { streams := [("s", [mkEvent 1, mkEvent 2])], snapshotStreams := [], failingAppends := [] }

/-- Counterexample to C7: with a supplied `expectedRevision` of 0 on a
two-event stream, `appendEvent` succeeds unguarded (revision 0 is falsy in
the source's options expression), while an append actually carrying the
supplied guard signals the concurrency conflict. -/
theorem appendEvent_zero_revision_counterexample :
    appendEvent twoEventsClient "s" (mkEvent 3) (some 0) =
      .ok { streams := [("s", [mkEvent 1, mkEvent 2, mkEvent 3])],
            snapshotStreams := [], failingAppends := [] } ∧
      appendToStream twoEventsClient "s" [mkEvent 3] (some 0) = .error .wrongExpectedVersion :=
  ⟨rfl, rfl⟩

/-- C7 (amended): a supplied nonzero `expectedRevision` is passed through to
the log append unchanged, and a revision mismatch surfaces the concurrency
conflict verbatim with no retry. -/
theorem appendEvent_nonzero_guard {S D : Type} (st : ClientModel S D) (streamId : String)
    (e : Event D) (r : Nat) (hr : r ≠ 0) :
    appendEvent st streamId e (some r) = appendToStream st streamId [e] (some r) ∧
      (streamId ∉ st.failingAppends → (lookupStream st streamId).length ≠ r + 1 →
        appendEvent st streamId e (some r) = .error .wrongExpectedVersion) := by
  have hb : (r != 0) = true := by simpa using hr
  constructor
  · simp [appendEvent, hb]
  · intro hmem hlen
    simp [appendEvent, appendToStream, hb, hmem, hlen]

/-- Witness for the amended C7: `expectedRevision = 2` on the two-event
stream carries the guard, and the mismatch (length 2 is not 3) surfaces the
conflict error. -/
theorem appendEvent_nonzero_guard_witness :
    ((2 : Nat) ≠ 0) ∧
      appendEvent twoEventsClient "s" (mkEvent 3) (some 2) =
        appendToStream twoEventsClient "s" [mkEvent 3] (some 2) ∧
      appendEvent twoEventsClient "s" (mkEvent 3) (some 2) = .error .wrongExpectedVersion :=
  ⟨by decide,
    (appendEvent_nonzero_guard twoEventsClient "s" (mkEvent 3) 2 (by decide)).1,
    (appendEvent_nonzero_guard twoEventsClient "s" (mkEvent 3) 2 (by decide)).2
      (by decide) (by decide)⟩

/-- Deleting all snapshots of a stream id: its snapshot stream is emptied,
everything else (events, failure behaviour) unchanged. -/
def clearSnapshots {S D : Type} (cfg : StreamConfig D) (streamId : String)
    (st : ClientModel S D) : ClientModel S D :=
  { st with snapshotStreams :=
      mapSet (snapshotStreamName cfg streamId) [] st.snapshotStreams }

/-- After deleting the snapshots there is no latest snapshot. -/
lemma getLatestSnapshot_clearSnapshots {S D : Type} (cfg : StreamConfig D)
    (streamId : String) (st : ClientModel S D) :
    getLatestSnapshot cfg (clearSnapshots cfg streamId st) streamId = none := by
  simp [getLatestSnapshot, clearSnapshots, lookupSnapshotStream, mapGet_mapSet_self]

/-- C1: snapshot transparency.  When the latest snapshot records exactly the
fold of the stream's first `k` events at version `k`, `getCurrentState`
returns the same state-and-version pair as it does after all snapshots are
deleted, and the version equals the stream's total event count. -/
theorem getCurrentState_snapshot_transparency {S D : Type} (cfg : StreamConfig D)
    (st : ClientModel S D) (streamId : String) (f : Option S → Event D → S)
    (sk : S) (k : Nat) (ts : String)
    (hsnap : getLatestSnapshot cfg st streamId =
      some { state := sk, version := k, timestamp := ts })
    (hk : k ≤ (lookupStream st streamId).length)
    (hfold : (replayFold cfg f (none, 0) ((lookupStream st streamId).take k)).1 = some sk)
    (hfail : snapshotStreamName cfg streamId ∉ st.failingAppends) :
    ∃ sv st₁ st₂,
      getCurrentState cfg st streamId f = .ok (sv, st₁) ∧
      getCurrentState cfg (clearSnapshots cfg streamId st) streamId f = .ok (sv, st₂) ∧
      sv.2 = (lookupStream st streamId).length := by
  have htake : replayFold cfg f (none, 0) ((lookupStream st streamId).take k) = (some sk, k) := by
    refine Prod.ext_iff.mpr ⟨hfold, ?_⟩
    rw [replayFold_snd]
    simp [List.length_take]
    omega
  have hkey : replayFold cfg f (none, 0) (lookupStream st streamId) =
      replayFold cfg f (some sk, k) ((lookupStream st streamId).drop k) := by
    conv_lhs => rw [← List.take_append_drop k (lookupStream st streamId)]
    rw [replayFold_append, htake]
  have h1 : getCurrentState cfg st streamId f =
      finishPass cfg st streamId
        (replayFold cfg f (some sk, k) ((lookupStream st streamId).drop k)) := by
    rw [getCurrentState_eq, hsnap]
    rfl
  have h2 : getCurrentState cfg (clearSnapshots cfg streamId st) streamId f =
      finishPass cfg (clearSnapshots cfg streamId st) streamId
        (replayFold cfg f (none, 0) (lookupStream st streamId)) := by
    rw [getCurrentState_eq, getLatestSnapshot_clearSnapshots]
    rfl
  obtain ⟨st₁, hfp1⟩ := finishPass_ok cfg st streamId
    (replayFold cfg f (some sk, k) ((lookupStream st streamId).drop k)) hfail
  obtain ⟨st₂, hfp2⟩ := finishPass_ok cfg (clearSnapshots cfg streamId st) streamId
    (replayFold cfg f (none, 0) (lookupStream st streamId)) hfail
  rw [hkey] at hfp2
  refine ⟨replayFold cfg f (some sk, k) ((lookupStream st streamId).drop k), st₁, st₂,
    ?_, ?_, ?_⟩
  · rw [h1]
    exact hfp1
  · rw [h2, hkey]
    exact hfp2
  · rw [replayFold_snd]
    simp [List.length_drop]
    omega

/-- A client holding three events on stream `s` plus a snapshot recording
the fold of the first two of them (state 3 = 1 + 2) at version 2. -/
def threeEventsClient : ClientModel Int Int :=
  { streams := [("s", [mkEvent 1, mkEvent 2, mkEvent 3])],
    snapshotStreams := [("s-snapshot", [{ state := 3, version := 2, timestamp := "t" }])],
    failingAppends := [] }

/-- Witness for C1: the transparency theorem applies to the three-event
client with its version-2 snapshot. -/
theorem getCurrentState_snapshot_transparency_witness :
    (getLatestSnapshot freqFiveConfig threeEventsClient "s" =
        some { state := (3 : Int), version := 2, timestamp := "t" }) ∧
      2 ≤ (lookupStream threeEventsClient "s").length ∧
      (replayFold freqFiveConfig applyAdd (none, 0)
        ((lookupStream threeEventsClient "s").take 2)).1 = some 3 ∧
      ∃ sv st₁ st₂,
        getCurrentState freqFiveConfig threeEventsClient "s" applyAdd = .ok (sv, st₁) ∧
        getCurrentState freqFiveConfig (clearSnapshots freqFiveConfig "s" threeEventsClient)
          "s" applyAdd = .ok (sv, st₂) ∧
        sv.2 = (lookupStream threeEventsClient "s").length :=
  ⟨rfl, by decide, rfl,
    getCurrentState_snapshot_transparency freqFiveConfig threeEventsClient "s" applyAdd
      3 2 "t" rfl (by decide) rfl (by decide)⟩

/-- An entity reference attached to an aggregate event, after
`EntityReference` of `aggregateHelper.ts`. -/
structure EntityReference where
  id : String
  type : String
  version : Nat
deriving DecidableEq, Repr

/-- An aggregate event, after `AggregateEvent` of `aggregateHelper.ts`: a
base event plus the optional list of affected entities. -/
structure AggregateEvent (D : Type) where
  type : String
  data : D
  version : Option Nat
  metadata : Option String
  affectedEntities : Option (List EntityReference)
deriving DecidableEq, Repr

/-- The aggregate-helper configuration after constructor defaults
(`aggregatePrefix ?? "aggregate-"`, `entityPrefixes ?? \x7b\x7d`). -/
structure AggregateConfig where
  aggregatePrefix : String
  entityPrefixes : List (String × String)

/-- `AggregateHelper.getAggregateStreamId`. -/
def getAggregateStreamId (cfg : AggregateConfig) (aggregateId : String) : String :=
  cfg.aggregatePrefix ++ aggregateId

/-- `AggregateHelper.getEntityStreamId`: the configured per-type entity
stream name part (falling back to the type itself), a dash, and the id. -/
def getEntityStreamId (cfg : AggregateConfig) (entityType entityId : String) : String :=
  ((mapGet entityType cfg.entityPrefixes).getD entityType) ++ "-" ++ entityId

/-- The coordinator's in-memory state: the per-aggregate pending-event map
and the entity-version map (both `Map` fields of `AggregateHelper`). -/
structure AggregateState (D : Type) where
  pendingEvents : List (String × List (AggregateEvent D))
  entityVersions : List (String × Nat)
deriving DecidableEq, Repr

/-- Errors of the aggregate coordinator: the missing-transaction error, and
the write failures re-thrown by `commitTransaction`. -/
inductive AggError where
  | noActiveTransaction
  | appendFailed
  | commitFailed
deriving DecidableEq, Repr

/-- `AggregateHelper.beginTransaction`: initializes this aggregate's pending
list to empty (re-invoking resets it). -/
def beginTransaction {D : Type} (cfg : AggregateConfig) (ag : AggregateState D)
    (aggregateId : String) : AggregateState D :=
  { ag with pendingEvents :=
      mapSet (getAggregateStreamId cfg aggregateId) [] ag.pendingEvents }

/-- `AggregateHelper.addEvent`: fails with the no-active-transaction error
when no pending list exists for this aggregate id; otherwise pushes the
event (with its entity references attached) onto the pending list and
records each referenced entity's claimed version, last write per entity
stream winning. -/
def addEvent {D : Type} (cfg : AggregateConfig) (ag : AggregateState D)
    (aggregateId : String) (event : AggregateEvent D)
    (affectedEntities : List EntityReference) :
    Except AggError (AggregateState D) :=
  let streamId := getAggregateStreamId cfg aggregateId
  match mapGet streamId ag.pendingEvents with
  | none => .error .noActiveTransaction
  | some pending =>
      .ok { pendingEvents :=
              mapSet streamId
                (pending ++ [{ event with affectedEntities := some affectedEntities }])
                ag.pendingEvents,
            entityVersions :=
              affectedEntities.foldl
                (fun m entity =>
                  mapSet (getEntityStreamId cfg entity.type entity.id) entity.version m)
                ag.entityVersions }

/-- Which transaction writes the environment rejects: appends to the listed
streams are rejected, and the final `transaction.commit` fails when
`commitFails` is set. -/
structure TxBehavior where
  failingAppends : List String
  commitFails : Bool
deriving DecidableEq, Repr

/-- The observable outcome of a commit or rollback: the coordinator state
afterwards, the error thrown (if any), and the ordered
`transaction.appendToStream` calls issued, each a stream name with its
event batch (the source wraps each event as `jsonEvent` with the whole
event as payload, recorded here as the event itself). -/
structure CommitOutcome (D : Type) where
  state : AggregateState D
  error : Option AggError
  txCalls : List (String × List (AggregateEvent D))
deriving DecidableEq, Repr

/-- The per-event copies to each referenced entity stream, in pending-list
order, exactly as the loop in `commitTransaction` issues them. -/
def entityAppendCalls {D : Type} (cfg : AggregateConfig)
    (pending : List (AggregateEvent D)) : List (String × List (AggregateEvent D)) :=
  pending.flatMap (fun event =>
    match event.affectedEntities with
    | none => []
    | some entities =>
        entities.map (fun entity =>
          (getEntityStreamId cfg entity.type entity.id, [event])))

/-- Issue the appends in order, stopping at the first rejected one: whether
all succeeded, and the calls actually attempted. -/
def runTxAppends {D : Type} (beh : TxBehavior) :
    List (String × List (AggregateEvent D)) →
      Bool × List (String × List (AggregateEvent D))
  | [] => (true, [])
  | call :: rest =>
      if call.1 ∈ beh.failingAppends then (false, [call])
      else
        let r := runTxAppends beh rest
        (r.1, call :: r.2)

/-- `AggregateHelper.commitTransaction`: returns immediately when no
transaction is open or the pending list is empty; otherwise appends the
full pending batch to the aggregate stream, then a copy of each pending
event to every referenced entity stream, then commits; on success and on
any failure alike the pending list for this aggregate id is deleted and the
whole entity-version map cleared, the error being re-thrown on failure. -/
def commitTransaction {D : Type} (cfg : AggregateConfig) (beh : TxBehavior)
    (ag : AggregateState D) (aggregateId : String) : CommitOutcome D :=
  let streamId := getAggregateStreamId cfg aggregateId
  match mapGet streamId ag.pendingEvents with
  | none => { state := ag, error := none, txCalls := [] }
  | some pending =>
      if pending.isEmpty then { state := ag, error := none, txCalls := [] }
      else
        let calls := (streamId, pending) :: entityAppendCalls cfg pending
        let run := runTxAppends beh calls
        let cleared : AggregateState D :=
          { pendingEvents := mapDelete streamId ag.pendingEvents, entityVersions := [] }
        if run.1 then
          if beh.commitFails then
            { state := cleared, error := some .commitFailed, txCalls := run.2 }
          else
            { state := cleared, error := none, txCalls := run.2 }
        else
          { state := cleared, error := some .appendFailed, txCalls := run.2 }

/-- `AggregateHelper.rollbackTransaction`: deletes this aggregate's pending
list and clears the whole entity-version map; it issues no client call and
throws no error. -/
def rollbackTransaction {D : Type} (cfg : AggregateConfig) (ag : AggregateState D)
    (aggregateId : String) : CommitOutcome D :=
  { state :=
      { pendingEvents := mapDelete (getAggregateStreamId cfg aggregateId) ag.pendingEvents,
        entityVersions := [] },
    error := none, txCalls := [] }

/-- C3: transaction residue.  A rollback issues no log write and throws no
error, a subsequent `addEvent` for the same aggregate id fails with the
no-active-transaction error, and whenever a commit throws (any append or
the commit itself failing), a subsequent `addEvent` fails the same way. -/
theorem transaction_residue_invariant {D : Type} (cfg : AggregateConfig) (beh : TxBehavior)
    (ag : AggregateState D) (aggregateId : String) (event : AggregateEvent D)
    (refs : List EntityReference) (err : AggError) :
    (rollbackTransaction cfg ag aggregateId).error = none ∧
    (rollbackTransaction cfg ag aggregateId).txCalls = [] ∧
    addEvent cfg (rollbackTransaction cfg ag aggregateId).state aggregateId event refs =
      .error .noActiveTransaction ∧
    ((commitTransaction cfg beh ag aggregateId).error = some err →
      addEvent cfg (commitTransaction cfg beh ag aggregateId).state aggregateId event refs =
        .error .noActiveTransaction) := by
  refine ⟨rfl, rfl, ?_, ?_⟩
  · simp [addEvent, rollbackTransaction, mapGet_mapDelete_self]
  · intro herr
    simp only [commitTransaction] at herr ⊢
    cases hg : mapGet (getAggregateStreamId cfg aggregateId) ag.pendingEvents with
    | none =>
        rw [hg] at herr
        simp at herr
    | some pes =>
        rw [hg] at herr
        by_cases he : pes.isEmpty = true
        · simp [he] at herr
        · simp only [if_neg he] at herr ⊢
          split
          · split <;> simp [addEvent, mapGet_mapDelete_self]
          · simp [addEvent, mapGet_mapDelete_self]

/-- The aggregate configuration used in the concrete transaction runs. -/
def aggConfig : AggregateConfig :=
  { aggregatePrefix := "aggregate-", entityPrefixes := [] }

/-- A bare aggregate event with integer payload 5. -/
def aggEvent : AggregateEvent Int :=
  { type := "TestEvent", data := 5, version := some 1, metadata := none,
    affectedEntities := none }

/-- The entity reference used in the concrete runs. -/
def refItem : EntityReference := { id := "i1", type := "item", version := 1 }

/-- `aggEvent` as `addEvent` stores it, with the entity reference attached. -/
def pendingItemEvent : AggregateEvent Int :=
  { aggEvent with affectedEntities := some [refItem] }

/-- A coordinator state with one open transaction for aggregate `A` holding
one pending event that references entity `item-i1`. -/
def openAgg : AggregateState Int :=
  { pendingEvents := [("aggregate-A", [pendingItemEvent])],
    entityVersions := [("item-i1", 1)] }

/-- The empty coordinator state. -/
def emptyAgg : AggregateState Int :=
  { pendingEvents := [], entityVersions := [] }

/-- The environment in which every append succeeds and the commit fails. -/
def commitFailBeh : TxBehavior := { failingAppends := [], commitFails := true }

/-- The environment in which every write succeeds. -/
def behOk : TxBehavior := { failingAppends := [], commitFails := false }

/-- Witness for C3: a failed commit of the open transaction throws
`commitFailed`, after which `addEvent` (and likewise after a rollback)
fails with the no-active-transaction error. -/
theorem transaction_residue_invariant_witness :
    (commitTransaction aggConfig commitFailBeh openAgg "A").error = some .commitFailed ∧
    addEvent aggConfig (commitTransaction aggConfig commitFailBeh openAgg "A").state "A"
      aggEvent [] = .error .noActiveTransaction ∧
    addEvent aggConfig (rollbackTransaction aggConfig openAgg "A").state "A"
      aggEvent [] = .error .noActiveTransaction :=
  ⟨by decide,
    (transaction_residue_invariant aggConfig commitFailBeh openAgg "A" aggEvent []
      .commitFailed).2.2.2 (by decide),
    (transaction_residue_invariant aggConfig commitFailBeh openAgg "A" aggEvent []
      .commitFailed).2.2.1⟩

/-- Counterexample to C4: committing one pending event that references one
entity issues the aggregate-stream batch FIRST and only then the entity
copy, while the distinct entity stream name shows the first write is not an
entity write — contradicting the claimed entity-copies-first order. -/
theorem commit_write_order_counterexample :
    (commitTransaction aggConfig behOk openAgg "A").txCalls =
      [(getAggregateStreamId aggConfig "A", [pendingItemEvent]),
       (getEntityStreamId aggConfig "item" "i1", [pendingItemEvent])] ∧
      getAggregateStreamId aggConfig "A" ≠ getEntityStreamId aggConfig "item" "i1" := by
  exact ⟨by decide, by decide⟩

/-- With no rejected appends, every issued append succeeds and the call
trace is the full intended sequence. -/
lemma runTxAppends_noFail {D : Type} (beh : TxBehavior) (hok : beh.failingAppends = [])
    (calls : List (String × List (AggregateEvent D))) :
    runTxAppends beh calls = (true, calls) := by
  induction calls with
  | nil => rfl
  | cons c rest ih => simp [runTxAppends, hok, ih]

/-- C4 (amended): for a non-empty pending list, `commitTransaction` first
issues the full batch to the aggregate root stream, then, for each pending
event in order, a copy to every entity stream named in that event's entity
references. -/
theorem commit_write_order {D : Type} (cfg : AggregateConfig) (beh : TxBehavior)
    (ag : AggregateState D) (aggregateId : String) (pes : List (AggregateEvent D))
    (hpes : mapGet (getAggregateStreamId cfg aggregateId) ag.pendingEvents = some pes)
    (hne : pes ≠ []) (hok : beh.failingAppends = []) :
    (commitTransaction cfg beh ag aggregateId).txCalls =
      (getAggregateStreamId cfg aggregateId, pes) :: entityAppendCalls cfg pes := by
  have he : pes.isEmpty = false := by
    cases pes with
    | nil => exact absurd rfl hne
    | cons a l => rfl
  simp only [commitTransaction, hpes, he, Bool.false_eq_true, if_false,
    runTxAppends_noFail beh hok]
  split
  · split <;> rfl
  · rfl

/-- Witness for the amended C4: committing the open transaction with one
pending event referencing one entity yields the aggregate batch followed by
the entity copy. -/
theorem commit_write_order_witness :
    (mapGet (getAggregateStreamId aggConfig "A") openAgg.pendingEvents =
        some [pendingItemEvent]) ∧
      ([pendingItemEvent] ≠ ([] : List (AggregateEvent Int))) ∧
      behOk.failingAppends = [] ∧
      (commitTransaction aggConfig behOk openAgg "A").txCalls =
        (getAggregateStreamId aggConfig "A", [pendingItemEvent]) ::
          entityAppendCalls aggConfig [pendingItemEvent] :=
  ⟨by decide, by decide, rfl,
    commit_write_order aggConfig behOk openAgg "A" [pendingItemEvent]
      (by decide) (by decide) rfl⟩

/-- The coordinator state with open transactions on aggregates `A` (empty
pending list) and `B` (one pending event referencing `item-i1`). -/
def twoTxAgg : AggregateState Int :=
  { pendingEvents := [("aggregate-A", []), ("aggregate-B", [pendingItemEvent])],
    entityVersions := [("item-i1", 1)] }

/-- Counterexample to C8: `twoTxAgg` arises from `beginTransaction` on `A`
and `B` followed by `addEvent` under `B`; committing `A` (whose pending
list is empty) returns without touching the entity-version map, so the
entry recorded under `B` is NOT cleared, contrary to the claim. -/
theorem entity_version_clearing_counterexample :
    addEvent aggConfig
        (beginTransaction aggConfig (beginTransaction aggConfig emptyAgg "A") "B")
        "B" aggEvent [refItem] = .ok twoTxAgg ∧
      (commitTransaction aggConfig behOk twoTxAgg "A").state.entityVersions =
        [("item-i1", 1)] ∧
      (commitTransaction aggConfig behOk twoTxAgg "A").state.entityVersions ≠ [] := by
  exact ⟨rfl, by decide, by decide⟩

/-- Distinct aggregate ids name distinct aggregate streams. -/
lemma aggregateStreamId_injective (cfg : AggregateConfig) {A B : String} (h : A ≠ B) :
    getAggregateStreamId cfg A ≠ getAggregateStreamId cfg B := by
  intro hc
  apply h
  simp only [getAggregateStreamId] at hc
  have hd := congrArg String.data hc
  rw [String.data_append, String.data_append] at hd
  exact String.ext (List.append_cancel_left hd)

/-- C8 (amended): committing `A` with a non-empty pending list, or rolling
`A` back, clears the WHOLE entity-version map — including entries recorded
by `addEvent` calls under a different aggregate `B` — while `B`'s pending
event list is left unchanged. -/
theorem entity_version_clearing {D : Type} (cfg : AggregateConfig) (beh : TxBehavior)
    (ag : AggregateState D) (A B : String) (pes : List (AggregateEvent D))
    (hA : mapGet (getAggregateStreamId cfg A) ag.pendingEvents = some pes)
    (hne : pes ≠ []) (hAB : A ≠ B) :
    (commitTransaction cfg beh ag A).state.entityVersions = [] ∧
    mapGet (getAggregateStreamId cfg B) (commitTransaction cfg beh ag A).state.pendingEvents =
      mapGet (getAggregateStreamId cfg B) ag.pendingEvents ∧
    (rollbackTransaction cfg ag A).state.entityVersions = [] ∧
    mapGet (getAggregateStreamId cfg B) (rollbackTransaction cfg ag A).state.pendingEvents =
      mapGet (getAggregateStreamId cfg B) ag.pendingEvents := by
  have hBA : getAggregateStreamId cfg B ≠ getAggregateStreamId cfg A :=
    aggregateStreamId_injective cfg (Ne.symm hAB)
  have he : pes.isEmpty = false := by
    cases pes with
    | nil => exact absurd rfl hne
    | cons a l => rfl
  have hstate : (commitTransaction cfg beh ag A).state =
      { pendingEvents := mapDelete (getAggregateStreamId cfg A) ag.pendingEvents,
        entityVersions := [] } := by
    simp only [commitTransaction, hA, he, Bool.false_eq_true, if_false]
    split
    · split <;> rfl
    · rfl
  refine ⟨by rw [hstate], ?_, rfl, mapGet_mapDelete_ne _ _ _ hBA⟩
  rw [hstate]
  exact mapGet_mapDelete_ne _ _ _ hBA

/-- Witness for the amended C8: with `A` holding one pending event and the
map holding `B`-recorded entries the theorem applies (here shown for the
open transaction on `A` and a distinct id `B`). -/
theorem entity_version_clearing_witness :
    (mapGet (getAggregateStreamId aggConfig "A") openAgg.pendingEvents =
        some [pendingItemEvent]) ∧
      ("A" : String) ≠ "B" ∧
      ((commitTransaction aggConfig behOk openAgg "A").state.entityVersions = [] ∧
        mapGet (getAggregateStreamId aggConfig "B")
            (commitTransaction aggConfig behOk openAgg "A").state.pendingEvents =
          mapGet (getAggregateStreamId aggConfig "B") openAgg.pendingEvents ∧
        (rollbackTransaction aggConfig openAgg "A").state.entityVersions = [] ∧
        mapGet (getAggregateStreamId aggConfig "B")
            (rollbackTransaction aggConfig openAgg "A").state.pendingEvents =
          mapGet (getAggregateStreamId aggConfig "B") openAgg.pendingEvents) :=
  ⟨by decide, by decide,
    entity_version_clearing aggConfig behOk openAgg "A" "B" [pendingItemEvent]
      (by decide) (by decide) (by decide)⟩

end EventStoreHelpers
